import Mathlib

/-!
Shallow embedding of the transaction lifecycle and validation engine of the
`ethereum-python-flask` repository.

The embedded code is:
* `src/domain/entities.py` — the four dataclasses (`Address`,
  `ValidatedTransaction`, `CreatedTransaction`, `TransferDetail`);
* `src/application/use_cases/validate_transaction.py` —
  `ValidateTransactionUseCase.execute`, embedded as `validateExecute`;
* `src/application/use_cases/create_transaction.py` —
  `CreateTransactionUseCase.execute` as `createExecute` and
  `UpdateTransactionStatusUseCase.execute` as `reconcileExecute`;
* the SQLAlchemy repositories, embedded as list-valued stores:
  `find` is `List.find?` on the relevant key, `save` appends and assigns
  the next id, `update` overwrites exactly the five columns the repository
  writes (`tx_hash`, `status`, `gas_price_gwei`, `gas_limit`,
  `effective_cost_wei`) on the row with the matching id.

The blockchain service (`web3_blockchain_service.py`) is a boundary: it is
modelled as a record of functions (`Chain`, `COps`).  Python dictionaries
returned by the service are modelled as structures; an absent
transaction/receipt is `none` (the service returns the falsy `{}`).
The `input` field of a transaction is, per the service, `tx.input`: the raw
call-data bytes (web3 `HexBytes`), modelled as `List Nat` of byte values.
Python exceptions are modelled with `Except`/explicit error results.
-/

namespace EthFlask

/-- The `TransferDetail` dataclass of `entities.py`. -/
structure TransferDetail where
  asset : String
  to_address : String
  value : String
deriving DecidableEq

/-- The `ValidatedTransaction` dataclass of `entities.py` (`created_at` omitted:
no embedded code reads it). -/
structure ValidatedTransaction where
  tx_hash : String
  asset : String
  to_address : String
  value : String
  is_valid : Bool
  id : Option Nat := none
deriving DecidableEq

/-- The `Address` dataclass of `entities.py`. -/
structure Address where
  address : String
  private_key : String
  id : Option Nat := none
deriving DecidableEq

/-- The `CreatedTransaction` dataclass of `entities.py`. -/
structure CreatedTransaction where
  from_address : String
  to_address : String
  asset : String
  value : String
  status : String
  tx_hash : Option String := none
  gas_price_gwei : Option String := none
  gas_limit : Option Nat := none
  effective_cost_wei : Option String := none
  id : Option Nat := none
deriving DecidableEq

/-- Opaque handle for one entry of `receipt["logs"]`; the engine only ever
passes it to the decoding function of the chain service. -/
abbrev LogEntry := Nat

/-- The fields of the transaction dictionary that
`ValidateTransactionUseCase.execute` reads: `to`, `value` and `input`
(raw call-data bytes). -/
structure TxDetails where
  «to» : String
  value : Nat
  input : List Nat
deriving DecidableEq

/-- The fields of the receipt dictionary that the use cases read:
`status`, `blockNumber`, `gasUsed`, `effectiveGasPrice`, `logs`.
(The dict lookups use `.get(key, default)` with default `0`, so a total
`Nat` field is faithful; only `status == 1` is ever tested.) -/
structure Receipt where
  status : Nat
  blockNumber : Nat
  gasUsed : Nat
  effectiveGasPrice : Nat
  logs : List LogEntry
deriving DecidableEq

/-- The read-side of `IBlockchainService` as consumed by the validator and
the reconciler. -/
structure Chain where
  get_transaction_details : String → Option TxDetails
  get_transaction_receipt : String → Option Receipt
  get_current_block_number : Nat
  decode_erc20_transfer_log : LogEntry → Option TransferDetail

/-- Gas data of the transaction dict returned by
`create_and_sign_transaction` (`gasPrice`, `gas`). -/
structure TxBuildDetails where
  gasPrice : Nat
  gas : Nat
deriving DecidableEq

/-- The write-side of `IBlockchainService` as consumed by
`CreateTransactionUseCase`; `none` models the call raising. -/
structure COps where
  create_and_sign : String → String → String → String → String → Option (String × TxBuildDetails)
  send_raw : String → Option String

/-- The `ValueError` family the use cases raise, split by raise site. -/
inductive UseCaseError where
  | invalidArgument
  | notFound
  | updateMissing
  | chainFailure
deriving DecidableEq

/-- Embeds `SQLAlchemyValidatedTransactionRepository.find_by_hash`. -/
def find_validated_by_hash (store : List ValidatedTransaction) (h : String) :
    Option ValidatedTransaction :=
  store.find? (fun t => t.tx_hash == h)

/-- Embeds `SQLAlchemyValidatedTransactionRepository.save`: insert, with the
db-assigned id modelled as the next row number. -/
def save_validated (store : List ValidatedTransaction) (tx : ValidatedTransaction) :
    List ValidatedTransaction :=
  store ++ [{ tx with id := some (store.length + 1) }]

/-- Embeds `SQLAlchemyCreatedTransactionRepository.find_by_hash`. -/
def find_created_by_hash (store : List CreatedTransaction) (h : String) :
    Option CreatedTransaction :=
  store.find? (fun t => t.tx_hash == some h)

/-- Embeds `SQLAlchemyCreatedTransactionRepository.save`. -/
def save_created (store : List CreatedTransaction) (tx : CreatedTransaction) :
    CreatedTransaction × List CreatedTransaction :=
  let tx' := { tx with id := some (store.length + 1) }
  (tx', store ++ [tx'])

/-- The column overwrite `SQLAlchemyCreatedTransactionRepository.update`
performs on the matching row: exactly `tx_hash`, `status`,
`gas_price_gwei`, `gas_limit`, `effective_cost_wei`. -/
def applyUpdate (store : List CreatedTransaction) (tx : CreatedTransaction) :
    List CreatedTransaction :=
  store.map (fun t =>
    if t.id == tx.id then
      { t with
        tx_hash := tx.tx_hash
        status := tx.status
        gas_price_gwei := tx.gas_price_gwei
        gas_limit := tx.gas_limit
        effective_cost_wei := tx.effective_cost_wei }
    else t)

/-- Embeds `SQLAlchemyCreatedTransactionRepository.update`: raises (`none`) when no
row has the entity's id. -/
def update_created (store : List CreatedTransaction) (tx : CreatedTransaction) :
    Option (List CreatedTransaction) :=
  if store.any (fun t => t.id == tx.id) then some (applyUpdate store tx) else none

/-- The check `input.startswith(b"0x")` on the raw call-data bytes: byte 48 is the
character `0`, byte 120 is `x`. -/
def startsWithHexMarker : List Nat → Bool
  | b0 :: b1 :: _ => b0 == 48 && b1 == 120
  | _ => false

/-- Transfer extraction of `ValidateTransactionUseCase.execute`
(lines 74–92): seed the list with one native "ETH" detail when
`value > 0 and not input.startswith(b"0x")`, then fold over the receipt
logs, appending each successful ERC-20 decode and overwriting the primary
asset with the decoded token's asset. -/
def extractTransfers (decode : LogEntry → Option TransferDetail)
    (td : TxDetails) (rc : Receipt) : List TransferDetail × String :=
  let base : List TransferDetail :=
    if decide (0 < td.value) && !startsWithHexMarker td.input then
      [{ asset := "ETH", to_address := td.«to», value := toString td.value }]
    else []
  rc.logs.foldl (fun acc l =>
    match decode l with
    | some d => (acc.1 ++ [d], d.asset)
    | none => acc) (base, "ETH")

/-- Constant `MIN_CONFIRMATIONS = 12` of `validate_transaction.py`. -/
def MIN_CONFIRMATIONS : Int := 12

/-- The two response shapes `ValidateTransactionUseCase.execute` returns:
the de-duplication dictionary (`validation_result` fields) and the fresh
`response_data` dictionary. -/
inductive ValidateResponse where
  | alreadyValidated (is_valid : Bool) (asset : String) (to_address : String) (value : String)
  | fresh (tx_hash : String) (is_valid_and_safe_for_credit : Bool)
      (transfers : List TransferDetail) (confirmations : Int) (tx_status : String)
deriving DecidableEq

/-- Embeds `ValidateTransactionUseCase.execute`.  The pair of gate boolean and
confirmation count mirrors the source: `confirmations` is bound only inside
the `status == 1` branch, and the response falls back to `0` when that
local was never bound (`confirmations if "confirmations" in locals() else 0`). -/
def validateExecute (c : Chain) (addresses : List Address)
    (store : List ValidatedTransaction) (tx_hash : String) :
    Except UseCaseError (ValidateResponse × List ValidatedTransaction) :=
  if tx_hash = "" then .error .invalidArgument
  else
    match find_validated_by_hash store tx_hash with
    | some existing_validation =>
        .ok (.alreadyValidated existing_validation.is_valid existing_validation.asset
          existing_validation.to_address existing_validation.value, store)
    | none =>
        match c.get_transaction_details tx_hash, c.get_transaction_receipt tx_hash with
        | some td, some rc =>
            let ts := extractTransfers c.decode_erc20_transfer_log td rc
            let our_addresses := addresses.map (fun a => a.address)
            let is_destination_our_address :=
              ts.1.any (fun t => our_addresses.contains t.to_address)
            let gate : Bool × Int :=
              if rc.status = 1 then
                let confirmations : Int :=
                  (c.get_current_block_number : Int) - (rc.blockNumber : Int)
                (decide (MIN_CONFIRMATIONS ≤ confirmations) && is_destination_our_address,
                  confirmations)
              else (false, 0)
            let store' :=
              if gate.1 then
                save_validated store
                  { tx_hash := tx_hash
                    asset := ts.2
                    to_address := match ts.1 with | [] => "N/A" | t :: _ => t.to_address
                    value := match ts.1 with | [] => "0" | t :: _ => t.value
                    is_valid := true }
              else store
            .ok (.fresh tx_hash gate.1 ts.1 gate.2
              (if rc.status = 1 then "success" else "failed"), store')
        | _, _ => .error .notFound

/-- Embeds `CreateTransactionUseCase.execute`.  Returns the result (or the
propagating error) together with the final store, so that the persisted
state at the moment an exception escapes is observable. -/
def createExecute (ops : COps) (addresses : List Address)
    (store : List CreatedTransaction)
    (from_address to_address asset value : String) :
    Except UseCaseError CreatedTransaction × List CreatedTransaction :=
  if from_address = "" || to_address = "" || asset = "" || value = "" then
    (.error .invalidArgument, store)
  else
    match addresses.find? (fun a => a.address == from_address) with
    | none => (.error .notFound, store)
    | some sender_account_db =>
        let private_key := sender_account_db.private_key
        let saved := save_created store
          { from_address := from_address
            to_address := to_address
            asset := asset
            value := value
            status := "pending" }
        match ops.create_and_sign from_address to_address asset value private_key with
        | none => (.error .chainFailure, saved.2)
        | some (signed_raw, tx_details) =>
            match ops.send_raw signed_raw with
            | none => (.error .chainFailure, saved.2)
            | some h =>
                let updated := { saved.1 with
                  tx_hash := some h
                  gas_price_gwei := some (toString tx_details.gasPrice)
                  gas_limit := some tx_details.gas }
                match update_created saved.2 updated with
                | some store₂ => (.ok updated, store₂)
                | none => (.error .updateMissing, saved.2)

/-- Embeds `UpdateTransactionStatusUseCase.execute` (the reconciler). -/
def reconcileExecute (c : Chain) (store : List CreatedTransaction)
    (tx_hash : String) :
    Except UseCaseError (CreatedTransaction × List CreatedTransaction) :=
  match find_created_by_hash store tx_hash with
  | none => .error .notFound
  | some tx_record =>
      match c.get_transaction_receipt tx_hash with
      | some rc =>
          let tx_record' :=
            if rc.status = 1 then
              { tx_record with
                status := "confirmed"
                effective_cost_wei := some (toString (rc.gasUsed * rc.effectiveGasPrice)) }
            else { tx_record with status := "failed" }
          match update_created store tx_record' with
          | some store' => .ok (tx_record', store')
          | none => .error .updateMissing
      | none => .ok ({ tx_record with status := "pending" }, store)

/-- The store state after one reconciliation step: the updated store on a
normal return, the untouched store when the call raises.  Used to iterate
`reconcileExecute` over a sequence of chain states. -/
def reconStoreStep (tx_hash : String) (store : List CreatedTransaction) (c : Chain) :
    List CreatedTransaction :=
  match reconcileExecute c store tx_hash with
  | .ok (_, store') => store'
  | .error _ => store

/-- The persisted status of the record for a hash, or "absent" when no such
record exists. -/
def statusOfStore (store : List CreatedTransaction) (h : String) : String :=
  ((find_created_by_hash store h).map (fun t => t.status)).getD "absent"

/-- Forward status movement of an outbound record: either unchanged, or
leaving "pending" for one of the two terminal states. -/
def statusForward (a b : String) : Prop :=
  a = b ∨ (a = "pending" ∧ (b = "confirmed" ∨ b = "failed"))

/-- Concrete fixture for witness theorems: a plain value transfer of 1000
wei to address "A" with empty call data. -/
def tdW : TxDetails := ⟨"A", 1000, []⟩

/-- Concrete fixture for witness theorems: a success receipt mined at block
5, gasUsed 3, effectiveGasPrice 7, no logs. -/
def rcW : Receipt := ⟨1, 5, 3, 7, []⟩

/-- Concrete fixture for witness theorems: a failed receipt (status 0). -/
def rcW0 : Receipt := ⟨0, 5, 3, 7, []⟩

/-- Concrete fixture for witness theorems: a chain at height 17 whose
transaction and receipt lookups return `tdW`/`rcW` for any hash and whose
log decoder matches nothing. -/
def chW : Chain := ⟨fun _ => some tdW, fun _ => some rcW, 17, fun _ => none⟩

/-- Concrete fixture: like `chW` but every receipt is the failed `rcW0`. -/
def chW0 : Chain := { chW with get_transaction_receipt := fun _ => some rcW0 }

/-- Concrete fixture: like `chW` but no receipt is ever available. -/
def chWn : Chain := { chW with get_transaction_receipt := fun _ => none }

/-- Concrete fixture: the custodied address "A". -/
def addrW : Address := ⟨"A", "k", some 1⟩

/-- Concrete fixture: an already-validated record for hash "h". -/
def vtW : ValidatedTransaction := ⟨"h", "ETH", "A", "1000", true, some 1⟩

/-- Concrete fixture: a pending outbound record with hash "h". -/
def ctW : CreatedTransaction :=
  { from_address := "f"
    to_address := "t"
    asset := "ETH"
    value := "1"
    status := "pending"
    tx_hash := some "h"
    id := some 1 }

/-- Concrete fixture: chain-write operations whose signing step always
raises. -/
def opsFailSign : COps := ⟨fun _ _ _ _ _ => none, fun _ => none⟩

/-- Concrete fixture: chain-write operations that sign successfully and
then fail to broadcast. -/
def opsFailSend : COps := ⟨fun _ _ _ _ _ => some ("raw", ⟨20, 21000⟩), fun _ => none⟩

end EthFlask

namespace EthFlask

/-- Evaluation of the de-duplication path (lines 54–66): a pre-existing
record short-circuits the call; the result depends only on the stored
record and the store is returned unchanged. -/
theorem validate_dedup_eval (c : Chain) (addresses : List Address)
    (store : List ValidatedTransaction) (h : String) (ex : ValidatedTransaction)
    (hh : h ≠ "") (hfind : find_validated_by_hash store h = some ex) :
    validateExecute c addresses store h =
      .ok (.alreadyValidated ex.is_valid ex.asset ex.to_address ex.value, store) := by
  unfold validateExecute
  rw [if_neg hh, hfind]

/-- Evaluation of the fresh-validation path: with no prior record and both
transaction and receipt available, the call returns the `response_data`
dictionary built from the extracted transfers and the gate, persisting a
new record exactly when the gate passes. -/
theorem validate_fresh_eval (c : Chain) (addresses : List Address)
    (store : List ValidatedTransaction) (h : String) (td : TxDetails) (rc : Receipt)
    (hh : h ≠ "") (hnone : find_validated_by_hash store h = none)
    (htd : c.get_transaction_details h = some td)
    (hrc : c.get_transaction_receipt h = some rc) :
    validateExecute c addresses store h =
      .ok (.fresh h
        (if rc.status = 1 then
          decide (MIN_CONFIRMATIONS ≤ (c.get_current_block_number : Int) - (rc.blockNumber : Int))
            && (extractTransfers c.decode_erc20_transfer_log td rc).1.any
                (fun t => (addresses.map (fun a => a.address)).contains t.to_address)
         else false)
        (extractTransfers c.decode_erc20_transfer_log td rc).1
        (if rc.status = 1 then (c.get_current_block_number : Int) - (rc.blockNumber : Int) else 0)
        (if rc.status = 1 then "success" else "failed"),
       if (if rc.status = 1 then
            decide (MIN_CONFIRMATIONS ≤ (c.get_current_block_number : Int) - (rc.blockNumber : Int))
              && (extractTransfers c.decode_erc20_transfer_log td rc).1.any
                  (fun t => (addresses.map (fun a => a.address)).contains t.to_address)
           else false) = true then
         save_validated store
           { tx_hash := h
             asset := (extractTransfers c.decode_erc20_transfer_log td rc).2
             to_address := (match (extractTransfers c.decode_erc20_transfer_log td rc).1 with
               | [] => "N/A"
               | t :: _ => t.to_address)
             value := (match (extractTransfers c.decode_erc20_transfer_log td rc).1 with
               | [] => "0"
               | t :: _ => t.value)
             is_valid := true }
       else store) := by
  unfold validateExecute
  rw [if_neg hh, hnone, htd, hrc]
  by_cases hst : rc.status = 1 <;> simp [hst]

/-- A nonempty list always has a last element. -/
theorem getLast?_cons_isSome (y : String) (ys : List String) :
    ((y :: ys).getLast?).isSome := by
  induction ys generalizing y with
  | nil => rfl
  | cons z zs ih => rw [List.getLast?_cons_cons]; exact ih z

/-- Pushing an element on the front of a list shifts the default of
`getLast?.getD` onto it. -/
theorem getLast?_getD_cons (x : String) (xs : List String) (a : String) :
    ((x :: xs).getLast?).getD a = (xs.getLast?).getD x := by
  cases xs with
  | nil => rfl
  | cons y ys =>
    rw [List.getLast?_cons_cons]
    cases hys : (y :: ys).getLast? with
    | none => exact absurd (congrArg Option.isSome hys) (by simp [getLast?_cons_isSome])
    | some z => rfl

/-- The asset accumulator of the log fold is the asset of the last
successfully decoded log, or the seed when none decodes. -/
theorem foldl_decode_asset (decode : LogEntry → Option TransferDetail) :
    ∀ (logs : List LogEntry) (acc : List TransferDetail) (a : String),
      (logs.foldl (fun acc l =>
        match decode l with
        | some d => (acc.1 ++ [d], d.asset)
        | none => acc) (acc, a)).2
      = (((logs.filterMap decode).map TransferDetail.asset).getLast?).getD a := by
  intro logs
  induction logs with
  | nil => intro acc a; rfl
  | cons l ls ih =>
    intro acc a
    rw [List.foldl_cons, List.filterMap_cons]
    cases hd : decode l with
    | none => simp only [hd]; exact ih acc a
    | some d =>
      simp only [hd]
      rw [ih (acc ++ [d]) d.asset, List.map_cons, getLast?_getD_cons]

/-- Last-decoded-wins: the primary asset produced by transfer extraction is
the asset of the last decodable log, defaulting to "ETH". -/
theorem extract_asset_lastWins (decode : LogEntry → Option TransferDetail)
    (td : TxDetails) (rc : Receipt) :
    (extractTransfers decode td rc).2
      = (((rc.logs.filterMap decode).map TransferDetail.asset).getLast?).getD "ETH" := by
  unfold extractTransfers
  exact foldl_decode_asset decode rc.logs _ "ETH"

end EthFlask

namespace EthFlask

/-- C1: for every validate call that reaches the safety gate, the
transaction is accepted (`is_valid_and_safe_for_credit = true`) if and only
if the receipt status indicates success (`status == 1`) AND
`currentBlockHeight - receipt.blockNumber ≥ MIN_CONFIRMATIONS = 12`
(the boundary is inclusive at 12) AND some extracted TransferDetail's
recipient equals one of the custodied addresses; in particular a receipt
with status 0 is never accepted. -/
theorem C1_safety_gate (c : Chain) (addresses : List Address)
    (store : List ValidatedTransaction) (h : String) (td : TxDetails) (rc : Receipt)
    (hh : h ≠ "") (hnone : find_validated_by_hash store h = none)
    (htd : c.get_transaction_details h = some td)
    (hrc : c.get_transaction_receipt h = some rc)
    (accepted : Bool) (transfers : List TransferDetail) (confirmations : Int)
    (lbl : String) (store' : List ValidatedTransaction)
    (hok : validateExecute c addresses store h =
      .ok (.fresh h accepted transfers confirmations lbl, store')) :
    accepted = true ↔
      (rc.status = 1
        ∧ MIN_CONFIRMATIONS ≤ (c.get_current_block_number : Int) - (rc.blockNumber : Int)
        ∧ ∃ t ∈ transfers, t.to_address ∈ addresses.map (fun a => a.address)) := by
  rw [validate_fresh_eval c addresses store h td rc hh hnone htd hrc] at hok
  simp only [Except.ok.injEq, Prod.mk.injEq, ValidateResponse.fresh.injEq, true_and] at hok
  obtain ⟨⟨hacc, htr, _, _⟩, _⟩ := hok
  subst hacc htr
  by_cases hst : rc.status = 1
  · simp [hst, List.any_eq_true, List.elem_iff]
  · simp [hst]

end EthFlask

namespace EthFlask

/-- Witness for C1: a concrete accepted run — success receipt, exactly 12
confirmations (height 17, block 5), native transfer to custodied "A". -/
theorem C1_safety_gate_witness :
    true = true ↔
      (rcW.status = 1
        ∧ MIN_CONFIRMATIONS ≤ (chW.get_current_block_number : Int) - (rcW.blockNumber : Int)
        ∧ ∃ t ∈ [TransferDetail.mk "ETH" "A" "1000"],
            t.to_address ∈ [addrW].map (fun a => a.address)) :=
  C1_safety_gate chW [addrW] [] "h" tdW rcW (by decide) rfl rfl rfl
    true [TransferDetail.mk "ETH" "A" "1000"] 12 "success"
    [ValidatedTransaction.mk "h" "ETH" "A" "1000" true (some 1)] rfl

end EthFlask

namespace EthFlask

/-- C9 (amended): for a validate call that reaches the safety-gate stage,
the returned confirmation count equals
`currentBlockHeight - receipt.blockNumber` when the receipt status is
success, and is `0` when the status is failed (the source only binds
`confirmations` inside the `status == 1` branch and otherwise falls back
to `0`). -/
theorem C9_confirmations_mirror (c : Chain) (addresses : List Address)
    (store : List ValidatedTransaction) (h : String) (td : TxDetails) (rc : Receipt)
    (hh : h ≠ "") (hnone : find_validated_by_hash store h = none)
    (htd : c.get_transaction_details h = some td)
    (hrc : c.get_transaction_receipt h = some rc)
    (accepted : Bool) (transfers : List TransferDetail) (confirmations : Int)
    (lbl : String) (store' : List ValidatedTransaction)
    (hok : validateExecute c addresses store h =
      .ok (.fresh h accepted transfers confirmations lbl, store')) :
    confirmations =
      (if rc.status = 1 then
        (c.get_current_block_number : Int) - (rc.blockNumber : Int)
       else 0) := by
  rw [validate_fresh_eval c addresses store h td rc hh hnone htd hrc] at hok
  simp only [Except.ok.injEq, Prod.mk.injEq, ValidateResponse.fresh.injEq, true_and] at hok
  exact hok.1.2.2.1.symm

/-- Witness for C9: a failed receipt at block 5 with chain height 17 —
the mirrored confirmation count is the fallback 0, not 12. -/
theorem C9_confirmations_mirror_witness :
    (0 : Int) =
      (if rcW0.status = 1 then
        (chW0.get_current_block_number : Int) - (rcW0.blockNumber : Int)
       else 0) :=
  C9_confirmations_mirror chW0 [addrW] [] "h" tdW rcW0 (by decide) rfl rfl rfl
    false [TransferDetail.mk "ETH" "A" "1000"] 0 "failed" [] rfl

/-- Counterexample for C9 as stated: with a failed receipt
(status 0, block 5) and chain height 17, the true depth is 12, but the
response carries confirmation count 0: the count is not
`currentBlockHeight - receipt.blockNumber` when the status is failed. -/
theorem C9_counterexample :
    validateExecute chW0 [addrW] [] "h" =
      .ok (.fresh "h" false [TransferDetail.mk "ETH" "A" "1000"] 0 "failed", [])
    ∧ (chW0.get_current_block_number : Int) - (rcW0.blockNumber : Int) = 12
    ∧ (0 : Int) ≠ 12 :=
  ⟨rfl, rfl, by decide⟩

/-- C7 (amended): `validate` fails with `InvalidArgument` exactly when the
hash is empty, and — for a nonempty hash with no prior record — fails with
`NotFound` exactly when AT LEAST ONE of transaction data and receipt data
is unavailable (the source raises when `not tx_details or not tx_receipt`). -/
theorem C7_error_conditions (c : Chain) (addresses : List Address)
    (store : List ValidatedTransaction) (h : String)
    (hh : h ≠ "") (hnone : find_validated_by_hash store h = none) :
    (∀ (c' : Chain) (a' : List Address) (s' : List ValidatedTransaction),
        validateExecute c' a' s' "" = .error .invalidArgument)
    ∧ validateExecute c addresses store h ≠ .error .invalidArgument
    ∧ (validateExecute c addresses store h = .error .notFound
        ↔ (c.get_transaction_details h = none ∨ c.get_transaction_receipt h = none)) := by
  refine ⟨fun c' a' s' => rfl, ?_, ?_⟩
  · unfold validateExecute
    rw [if_neg hh, hnone]
    rcases hd : c.get_transaction_details h with _ | td <;>
      rcases hr : c.get_transaction_receipt h with _ | rc <;> simp
  · unfold validateExecute
    rw [if_neg hh, hnone]
    rcases hd : c.get_transaction_details h with _ | td <;>
      rcases hr : c.get_transaction_receipt h with _ | rc <;> simp

/-- Witness for C7 (amended): transaction data present, receipt absent —
the NotFound iff holds at this concrete input. -/
theorem C7_error_conditions_witness :
    validateExecute chWn [addrW] [] "h" = .error .notFound ↔
      (chWn.get_transaction_details "h" = none ∨ chWn.get_transaction_receipt "h" = none) :=
  (C7_error_conditions chWn [addrW] [] "h" (by decide) rfl).2.2

/-- Counterexample for C7 as stated: the chain HAS transaction data for
"h" (only the receipt is missing), yet validate fails with NotFound —
contradicting "NotFound exactly when the chain has neither transaction nor
receipt data". -/
theorem C7_counterexample :
    chWn.get_transaction_details "h" = some tdW
    ∧ validateExecute chWn [addrW] [] "h" = .error .notFound :=
  ⟨rfl, rfl⟩

end EthFlask

namespace EthFlask

/-- C4: a new ValidatedTransaction is persisted if and only if the outcome
is accepted; the persisted record uses the first extracted transfer's
recipient and value together with the primary asset, and the primary asset
is "ETH" overridden by each successfully decoded token log
(last-decoded-wins). -/
theorem C4_recording (c : Chain) (addresses : List Address)
    (store : List ValidatedTransaction) (h : String) (td : TxDetails) (rc : Receipt)
    (hh : h ≠ "") (hnone : find_validated_by_hash store h = none)
    (htd : c.get_transaction_details h = some td)
    (hrc : c.get_transaction_receipt h = some rc)
    (accepted : Bool) (transfers : List TransferDetail) (confirmations : Int)
    (lbl : String) (store' : List ValidatedTransaction)
    (hok : validateExecute c addresses store h =
      .ok (.fresh h accepted transfers confirmations lbl, store')) :
    transfers = (extractTransfers c.decode_erc20_transfer_log td rc).1
    ∧ (accepted = true →
        store' = save_validated store
          { tx_hash := h
            asset := (extractTransfers c.decode_erc20_transfer_log td rc).2
            to_address := (match (extractTransfers c.decode_erc20_transfer_log td rc).1 with
              | [] => "N/A"
              | t :: _ => t.to_address)
            value := (match (extractTransfers c.decode_erc20_transfer_log td rc).1 with
              | [] => "0"
              | t :: _ => t.value)
            is_valid := true })
    ∧ (accepted = false → store' = store)
    ∧ (extractTransfers c.decode_erc20_transfer_log td rc).2
        = (((rc.logs.filterMap c.decode_erc20_transfer_log).map TransferDetail.asset).getLast?).getD "ETH" := by
  rw [validate_fresh_eval c addresses store h td rc hh hnone htd hrc] at hok
  simp only [Except.ok.injEq, Prod.mk.injEq, ValidateResponse.fresh.injEq, true_and] at hok
  obtain ⟨⟨hacc, htr, hconf, hlbl⟩, hstore⟩ := hok
  refine ⟨htr.symm, ?_, ?_, extract_asset_lastWins _ _ _⟩
  · intro ha
    rw [← hstore, if_pos (hacc.trans ha)]
  · intro ha
    rw [← hstore, hacc, ha]
    simp

/-- Witness for C4: in the concrete accepted run, the persisted record is
built from the (single) extracted transfer and the primary asset. -/
theorem C4_recording_witness :
    [ValidatedTransaction.mk "h" "ETH" "A" "1000" true (some 1)] =
      save_validated []
        { tx_hash := "h"
          asset := (extractTransfers chW.decode_erc20_transfer_log tdW rcW).2
          to_address := (match (extractTransfers chW.decode_erc20_transfer_log tdW rcW).1 with
            | [] => "N/A"
            | t :: _ => t.to_address)
          value := (match (extractTransfers chW.decode_erc20_transfer_log tdW rcW).1 with
            | [] => "0"
            | t :: _ => t.value)
          is_valid := true } :=
  (C4_recording chW [addrW] [] "h" tdW rcW (by decide) rfl rfl rfl
    true [TransferDetail.mk "ETH" "A" "1000"] 12 "success"
    [ValidatedTransaction.mk "h" "ETH" "A" "1000" true (some 1)] rfl).2.1 rfl

/-- C10: whenever validate accepts, the extracted transfer list is
non-empty (acceptance needs a destination match), so the "N/A"/"0"
fallbacks are unreachable: the persisted record carries the actual
recipient and value of the first extracted transfer. -/
theorem C10_no_placeholder (c : Chain) (addresses : List Address)
    (store : List ValidatedTransaction) (h : String) (td : TxDetails) (rc : Receipt)
    (hh : h ≠ "") (hnone : find_validated_by_hash store h = none)
    (htd : c.get_transaction_details h = some td)
    (hrc : c.get_transaction_receipt h = some rc)
    (accepted : Bool) (transfers : List TransferDetail) (confirmations : Int)
    (lbl : String) (store' : List ValidatedTransaction)
    (hok : validateExecute c addresses store h =
      .ok (.fresh h accepted transfers confirmations lbl, store'))
    (hacc : accepted = true) :
    ∃ t ts', transfers = t :: ts'
      ∧ store' = save_validated store
          { tx_hash := h
            asset := (extractTransfers c.decode_erc20_transfer_log td rc).2
            to_address := t.to_address
            value := t.value
            is_valid := true } := by
  rw [validate_fresh_eval c addresses store h td rc hh hnone htd hrc] at hok
  simp only [Except.ok.injEq, Prod.mk.injEq, ValidateResponse.fresh.injEq, true_and] at hok
  obtain ⟨⟨hacc', htr, hconf, hlbl⟩, hstore⟩ := hok
  have hg := hacc'.trans hacc
  by_cases hst : rc.status = 1
  · rw [if_pos hst] at hg
    have hany := (Bool.and_eq_true _ _).mp hg |>.2
    cases hE : (extractTransfers c.decode_erc20_transfer_log td rc).1 with
    | nil => rw [hE] at hany; simp at hany
    | cons t₀ ts₀ =>
        refine ⟨t₀, ts₀, by rw [← htr, hE], ?_⟩
        rw [← hstore, if_pos hst, if_pos hg, hE]
  · rw [if_neg hst] at hg
    exact absurd hg (by simp)

/-- Witness for C10: the concrete accepted run persists the actual
recipient "A" and value "1000" of the first (and only) transfer. -/
theorem C10_no_placeholder_witness :
    ∃ t ts', [TransferDetail.mk "ETH" "A" "1000"] = t :: ts'
      ∧ [ValidatedTransaction.mk "h" "ETH" "A" "1000" true (some 1)] =
          save_validated []
            { tx_hash := "h"
              asset := (extractTransfers chW.decode_erc20_transfer_log tdW rcW).2
              to_address := t.to_address
              value := t.value
              is_valid := true } :=
  C10_no_placeholder chW [addrW] [] "h" tdW rcW (by decide) rfl rfl rfl
    true [TransferDetail.mk "ETH" "A" "1000"] 12 "success"
    [ValidatedTransaction.mk "h" "ETH" "A" "1000" true (some 1)] rfl rfl

end EthFlask

namespace EthFlask

/-- No record for the hash means the hash-filter of the store is empty. -/
theorem filter_nil_of_find_none (store : List ValidatedTransaction) (h : String)
    (hnone : find_validated_by_hash store h = none) :
    store.filter (fun t => t.tx_hash == h) = [] := by
  unfold find_validated_by_hash at hnone
  rw [List.find?_eq_none] at hnone
  exact List.filter_eq_nil_iff.mpr hnone

/-- Appending a record for the hash to a store without one makes it the
found record. -/
theorem find_validated_append (store : List ValidatedTransaction) (h : String)
    (v : ValidatedTransaction) (hnone : find_validated_by_hash store h = none)
    (hv : v.tx_hash = h) :
    find_validated_by_hash (store ++ [v]) h = some v := by
  unfold find_validated_by_hash at *
  rw [List.find?_append, hnone]
  simp [List.find?, hv]

/-- A validate call either leaves the store unchanged or appends exactly
one record carrying the validated hash. -/
theorem validate_store_shape (c : Chain) (addresses : List Address)
    (store : List ValidatedTransaction) (h : String)
    (r : ValidateResponse) (s' : List ValidatedTransaction)
    (hok : validateExecute c addresses store h = .ok (r, s')) :
    s' = store ∨ ∃ v, s' = store ++ [v] ∧ v.tx_hash = h := by
  unfold validateExecute at hok
  by_cases hx : h = ""
  · rw [if_pos hx] at hok
    simp at hok
  · rw [if_neg hx] at hok
    cases hf : find_validated_by_hash store h with
    | some ex =>
      simp only [hf] at hok
      simp only [Except.ok.injEq, Prod.mk.injEq] at hok
      exact Or.inl hok.2.symm
    | none =>
      simp only [hf] at hok
      cases hdt : c.get_transaction_details h with
      | none => simp only [hdt] at hok; simp at hok
      | some td =>
        cases hrt : c.get_transaction_receipt h with
        | none => simp only [hdt, hrt] at hok; simp at hok
        | some rc =>
          simp only [hdt, hrt] at hok
          simp only [Except.ok.injEq, Prod.mk.injEq] at hok
          obtain ⟨_, hs⟩ := hok
          by_cases hst : rc.status = 1
          · simp only [if_pos hst] at hs
            by_cases hg : (decide (MIN_CONFIRMATIONS ≤ (c.get_current_block_number : Int) - (rc.blockNumber : Int)) &&
                (extractTransfers c.decode_erc20_transfer_log td rc).1.any fun t =>
                  (List.map (fun a => a.address) addresses).contains t.to_address) = true
            · rw [if_pos hg] at hs
              exact Or.inr ⟨_, hs.symm, rfl⟩
            · rw [if_neg hg] at hs
              exact Or.inl hs.symm
          · simp only [if_neg hst] at hs
            rw [if_neg (by simp)] at hs
            exact Or.inl hs.symm

/-- C2: de-duplication and idempotence.  Part 1: when a record exists for
the hash, the call returns its stored fields and leaves the store
unchanged, for ANY chain state (the chain is never consulted).  Part 2:
starting from a store without the hash, two sequential calls leave at most
one record for the hash, and if the first call persisted a record the
second returns exactly its stored fields without persisting again. -/
theorem C2_idempotent_dedup (c₁ c₂ : Chain) (a₁ a₂ : List Address)
    (store : List ValidatedTransaction) (h : String) (hh : h ≠ "") :
    (∀ ex, find_validated_by_hash store h = some ex →
      validateExecute c₁ a₁ store h =
        .ok (.alreadyValidated ex.is_valid ex.asset ex.to_address ex.value, store))
    ∧ (∀ r₁ s₁ r₂ s₂,
        find_validated_by_hash store h = none →
        validateExecute c₁ a₁ store h = .ok (r₁, s₁) →
        validateExecute c₂ a₂ s₁ h = .ok (r₂, s₂) →
        (s₂.filter (fun t => t.tx_hash == h)).length ≤ 1
        ∧ ∀ v, s₁ = store ++ [v] →
            (r₂ = .alreadyValidated v.is_valid v.asset v.to_address v.value ∧ s₂ = s₁)) := by
  constructor
  · intro ex hfind
    exact validate_dedup_eval c₁ a₁ store h ex hh hfind
  · intro r₁ s₁ r₂ s₂ hnone hok₁ hok₂
    have hfil : store.filter (fun t => t.tx_hash == h) = [] :=
      filter_nil_of_find_none store h hnone
    rcases validate_store_shape c₁ a₁ store h r₁ s₁ hok₁ with hs₁ | ⟨v, hs₁, hv⟩
    · subst hs₁
      constructor
      · rcases validate_store_shape c₂ a₂ s₁ h r₂ s₂ hok₂ with hs₂ | ⟨w, hs₂, hw⟩
        · rw [hs₂, hfil]
          simp
        · rw [hs₂, List.filter_append, hfil]
          simpa using List.length_filter_le _ [w]
      · intro v hv'
        exact absurd hv' (by simp)
    · have hfind₂ : find_validated_by_hash s₁ h = some v := by
        rw [hs₁]
        exact find_validated_append store h v hnone hv
      have heval₂ := validate_dedup_eval c₂ a₂ s₁ h v hh hfind₂
      rw [heval₂] at hok₂
      simp only [Except.ok.injEq, Prod.mk.injEq] at hok₂
      obtain ⟨hr₂, hs₂⟩ := hok₂
      constructor
      · rw [← hs₂, hs₁, List.filter_append, hfil]
        simpa using List.length_filter_le _ [v]
      · intro w hw'
        have hvw : v = w := by
          have h2 := hs₁.symm.trans hw'
          simpa using h2
        subst hvw
        exact ⟨hr₂.symm, hs₂.symm⟩

/-- Witness for C2: with the record `vtW` already stored for hash "h",
the call returns its stored fields and the store is unchanged. -/
theorem C2_idempotent_dedup_witness :
    validateExecute chW [addrW] [vtW] "h" =
      .ok (.alreadyValidated vtW.is_valid vtW.asset vtW.to_address vtW.value, [vtW]) :=
  (C2_idempotent_dedup chW chW [addrW] [addrW] [vtW] "h" (by decide)).1 vtW rfl

end EthFlask

namespace EthFlask

/-- Update on a store that contains a row with the entity's id succeeds
and applies the column overwrite. -/
theorem update_created_found (store : List CreatedTransaction)
    (tx rec : CreatedTransaction) (hmem : rec ∈ store) (hid : rec.id = tx.id) :
    update_created store tx = some (applyUpdate store tx) := by
  unfold update_created
  rw [if_pos (List.any_eq_true.mpr ⟨rec, hmem, by rw [hid]; exact beq_self_eq_true _⟩)]

/-- C5: on an existing record there are exactly three reconcile outcomes.
Receipt absent: the returned record's status is pending and the store is
untouched.  Receipt with success status: status confirmed and
`effectiveCost` is the exact integer product `gasUsed * effectiveGasPrice`
rendered as a decimal string, persisted.  Receipt with failure status:
status failed, persisted. -/
theorem C5_reconcile_outcomes (c : Chain) (store : List CreatedTransaction)
    (h : String) (rec : CreatedTransaction)
    (hfind : find_created_by_hash store h = some rec) :
    (c.get_transaction_receipt h = none →
      reconcileExecute c store h = .ok ({ rec with status := "pending" }, store))
    ∧ (∀ rc, c.get_transaction_receipt h = some rc → rc.status = 1 →
        reconcileExecute c store h =
          .ok ({ rec with
                  status := "confirmed"
                  effective_cost_wei := some (toString (rc.gasUsed * rc.effectiveGasPrice)) },
            applyUpdate store
              { rec with
                status := "confirmed"
                effective_cost_wei := some (toString (rc.gasUsed * rc.effectiveGasPrice)) }))
    ∧ (∀ rc, c.get_transaction_receipt h = some rc → rc.status ≠ 1 →
        reconcileExecute c store h =
          .ok ({ rec with status := "failed" },
            applyUpdate store { rec with status := "failed" })) := by
  have hmem := List.mem_of_find?_eq_some hfind
  refine ⟨?_, ?_, ?_⟩
  · intro hr
    simp only [reconcileExecute, hfind, hr]
  · intro rc hr hst
    simp only [reconcileExecute, hfind, hr, if_pos hst]
    rw [update_created_found store
      { rec with
        status := "confirmed"
        effective_cost_wei := some (toString (rc.gasUsed * rc.effectiveGasPrice)) }
      rec hmem rfl]
  · intro rc hr hst
    simp only [reconcileExecute, hfind, hr, if_neg hst]
    rw [update_created_found store { rec with status := "failed" } rec hmem rfl]

/-- Witness for C5: reconciling the pending `ctW` against the success
receipt `rcW` confirms it with effective cost `3 * 7 = 21` as the decimal
string "21". -/
theorem C5_reconcile_outcomes_witness :
    reconcileExecute chW [ctW] "h" =
      .ok ({ ctW with
              status := "confirmed"
              effective_cost_wei := some (toString (rcW.gasUsed * rcW.effectiveGasPrice)) },
        applyUpdate [ctW]
          { ctW with
            status := "confirmed"
            effective_cost_wei := some (toString (rcW.gasUsed * rcW.effectiveGasPrice)) }) :=
  (C5_reconcile_outcomes chW [ctW] "h" ctW rfl).2.1 rcW rfl rfl

/-- C6: after the from-address is resolved, a record in status "pending"
with no hash and no gas fields is persisted before any chain-client call;
if building/signing or broadcasting fails, that record is left persisted
unchanged and the error propagates. -/
theorem C6_pending_before_broadcast (ops : COps) (addresses : List Address)
    (store : List CreatedTransaction)
    (from_address to_address asset value : String) (sender : Address)
    (h1 : from_address ≠ "") (h2 : to_address ≠ "") (h3 : asset ≠ "") (h4 : value ≠ "")
    (hfind : addresses.find? (fun a => a.address == from_address) = some sender) :
    (ops.create_and_sign from_address to_address asset value sender.private_key = none →
      createExecute ops addresses store from_address to_address asset value =
        (.error .chainFailure,
          store ++ [{ from_address := from_address
                      to_address := to_address
                      asset := asset
                      value := value
                      status := "pending"
                      tx_hash := none
                      gas_price_gwei := none
                      gas_limit := none
                      effective_cost_wei := none
                      id := some (store.length + 1) }]))
    ∧ (∀ raw det,
        ops.create_and_sign from_address to_address asset value sender.private_key
          = some (raw, det) →
        ops.send_raw raw = none →
        createExecute ops addresses store from_address to_address asset value =
          (.error .chainFailure,
            store ++ [{ from_address := from_address
                        to_address := to_address
                        asset := asset
                        value := value
                        status := "pending"
                        tx_hash := none
                        gas_price_gwei := none
                        gas_limit := none
                        effective_cost_wei := none
                        id := some (store.length + 1) }])) := by
  constructor
  · intro h5
    simp only [createExecute, h1, h2, h3, h4, hfind, h5, save_created]
    simp
  · intro raw det h5 h6
    simp only [createExecute, h1, h2, h3, h4, hfind, h5, h6, save_created]
    simp

/-- Witness for C6: a signing step that raises leaves exactly the pending
intent record in the store and propagates the failure. -/
theorem C6_pending_before_broadcast_witness :
    createExecute opsFailSign [addrW] [] "A" "B" "ETH" "1" =
      (.error .chainFailure,
        [{ from_address := "A"
           to_address := "B"
           asset := "ETH"
           value := "1"
           status := "pending"
           tx_hash := none
           gas_price_gwei := none
           gas_limit := none
           effective_cost_wei := none
           id := some 1 }]) :=
  (C6_pending_before_broadcast opsFailSign [addrW] [] "A" "B" "ETH" "1" addrW
    (by decide) (by decide) (by decide) (by decide) rfl).1 rfl

/-- C8 evidence (the claim is right, the code is wrong): a transaction
with non-zero value 9 whose raw call data is the four bytes
`a9 05 9c bb` (the ERC-20 `transfer` selector — it DOES carry contract
call data) still produces a native TransferDetail, because
`input.startswith(b"0x")` tests the raw bytes against the two ASCII
characters "0x" (bytes 48, 120) rather than testing for the presence of
call data. -/
theorem C8_call_data_still_native :
    (extractTransfers (fun _ => none)
        ⟨"A", 9, [169, 5, 156, 187]⟩ ⟨1, 0, 0, 0, []⟩).1
      = [{ asset := "ETH", to_address := "A", value := "9" }]
    ∧ ([169, 5, 156, 187] : List Nat) ≠ [] :=
  ⟨rfl, by decide⟩

end EthFlask

namespace EthFlask

/-- Lookup in a singleton store holding the record for the hash. -/
theorem find_created_singleton (r : CreatedTransaction) (h : String)
    (hhash : r.tx_hash = some h) :
    find_created_by_hash [r] h = some r := by
  unfold find_created_by_hash
  simp [List.find?, hhash]

/-- The status read off a singleton store is the record's status. -/
theorem statusOfStore_singleton (r : CreatedTransaction) (h : String)
    (hhash : r.tx_hash = some h) :
    statusOfStore [r] h = r.status := by
  unfold statusOfStore
  rw [find_created_singleton r h hhash]
  rfl

/-- One reconcile step on a singleton store: the store is unchanged when
the receipt is absent, and the record's status (and cost, on success) is
overwritten from the receipt when present. -/
theorem reconStoreStep_singleton (c : Chain) (r : CreatedTransaction) (h : String)
    (hhash : r.tx_hash = some h) :
    reconStoreStep h [r] c =
      [(match c.get_transaction_receipt h with
        | none => r
        | some rc =>
          if rc.status = 1 then
            { r with
              status := "confirmed"
              effective_cost_wei := some (toString (rc.gasUsed * rc.effectiveGasPrice)) }
          else { r with status := "failed" })] := by
  have hfind := find_created_singleton r h hhash
  cases hr : c.get_transaction_receipt h with
  | none => simp only [reconStoreStep, reconcileExecute, hfind, hr]
  | some rc =>
    have hmem : r ∈ [r] := List.mem_singleton.mpr rfl
    by_cases hst : rc.status = 1
    · simp only [reconStoreStep, reconcileExecute, hfind, hr, if_pos hst]
      rw [update_created_found [r]
        { r with
          status := "confirmed"
          effective_cost_wei := some (toString (rc.gasUsed * rc.effectiveGasPrice)) }
        r hmem rfl]
      simp [applyUpdate]
    · simp only [reconStoreStep, reconcileExecute, hfind, hr, if_neg hst]
      rw [update_created_found [r] { r with status := "failed" } r hmem rfl]
      simp [applyUpdate]

/-- The head of a scan is its seed. -/
theorem scanl_head (f : List CreatedTransaction → Chain → List CreatedTransaction)
    (a : List CreatedTransaction) (l : List Chain) :
    (List.scanl f a l).head? = some a := by
  cases l <;> rfl

/-- Invariant-carrying induction behind C3: starting from a record that is
pending or already at the terminal state matching the (consistent) receipt
status, every reconcile step moves the persisted status forward. -/
theorem recon_trace_aux (s₀ : Nat) (h : String) :
    ∀ (cs : List Chain) (r : CreatedTransaction),
      (∀ c ∈ cs, ∀ rc, c.get_transaction_receipt h = some rc → rc.status = s₀) →
      r.tx_hash = some h →
      (r.status = "pending" ∨ r.status = (if s₀ = 1 then "confirmed" else "failed")) →
      List.Chain' statusForward
        ((List.scanl (reconStoreStep h) [r] cs).map (fun s => statusOfStore s h)) := by
  intro cs
  induction cs with
  | nil =>
    intro r _ _ _
    simp [List.scanl]
  | cons c cs ih =>
    intro r hcons hhash hstat
    have hstep := reconStoreStep_singleton c r h hhash
    cases hr : c.get_transaction_receipt h with
    | none =>
      simp only [hr] at hstep
      simp only [List.scanl, hstep, List.map_cons]
      rw [List.chain'_cons']
      constructor
      · intro y hy
        rw [List.head?_map, scanl_head] at hy
        simp at hy
        subst hy
        exact Or.inl rfl
      · exact ih r (fun c' hc' => hcons c' (List.mem_cons_of_mem _ hc')) hhash hstat
    | some rc =>
      have hs0 : rc.status = s₀ := hcons c (List.mem_cons_self _ _) rc hr
      simp only [hr] at hstep
      rw [hs0] at hstep
      by_cases hs1 : s₀ = 1
      · rw [if_pos hs1] at hstep
        simp only [List.scanl, hstep, List.map_cons]
        rw [List.chain'_cons']
        constructor
        · intro y hy
          rw [List.head?_map, scanl_head] at hy
          simp at hy
          subst hy
          rw [statusOfStore_singleton r h hhash,
            statusOfStore_singleton
              { r with
                status := "confirmed"
                effective_cost_wei := some (toString (rc.gasUsed * rc.effectiveGasPrice)) }
              h hhash]
          unfold statusForward
          rcases hstat with hp | hterm
          · exact Or.inr ⟨hp, Or.inl rfl⟩
          · rw [if_pos hs1] at hterm
            exact Or.inl hterm
        · refine ih _ (fun c' hc' => hcons c' (List.mem_cons_of_mem _ hc')) hhash ?_
          right
          rw [if_pos hs1]
      · rw [if_neg hs1] at hstep
        simp only [List.scanl, hstep, List.map_cons]
        rw [List.chain'_cons']
        constructor
        · intro y hy
          rw [List.head?_map, scanl_head] at hy
          simp at hy
          subst hy
          rw [statusOfStore_singleton r h hhash,
            statusOfStore_singleton { r with status := "failed" } h hhash]
          unfold statusForward
          rcases hstat with hp | hterm
          · exact Or.inr ⟨hp, Or.inr rfl⟩
          · rw [if_neg hs1] at hterm
            exact Or.inl hterm
        · refine ih _ (fun c' hc' => hcons c' (List.mem_cons_of_mem _ hc')) hhash ?_
          right
          rw [if_neg hs1]

/-- C3 (amended): starting from a pending record, over any sequence of
reconcile operations in which every receipt the chain reports for the hash
carries the same status, the persisted status only moves forward —
each step either keeps the status or moves pending → confirmed or
pending → failed.  (Without the same-status proviso the code moves a
record laterally, see the counterexample.) -/
theorem C3_status_monotone (cs : List Chain) (s₀ : Nat) (h : String)
    (rec : CreatedTransaction)
    (hcons : ∀ c ∈ cs, ∀ rc, c.get_transaction_receipt h = some rc → rc.status = s₀)
    (hhash : rec.tx_hash = some h) (hpend : rec.status = "pending") :
    List.Chain' statusForward
      ((List.scanl (reconStoreStep h) [rec] cs).map (fun s => statusOfStore s h)) :=
  recon_trace_aux s₀ h cs rec hcons hhash (Or.inl hpend)

/-- Witness for C3 (amended): one reconcile against the success receipt —
the trace is a legal forward chain. -/
theorem C3_status_monotone_witness :
    List.Chain' statusForward
      ((List.scanl (reconStoreStep "h") [ctW] [chW]).map (fun s => statusOfStore s "h")) :=
  C3_status_monotone [chW] 1 "h" ctW
    (by
      intro c hc rc hrc
      rw [List.mem_singleton] at hc
      subst hc
      rw [← Option.some.inj hrc]
      rfl)
    rfl rfl

/-- Counterexample for C3 as stated: reconciling the pending record first
against a success receipt and then against a failed receipt for the same
hash drives the persisted status "pending" → "confirmed" → "failed" — a
lateral move out of the terminal state "confirmed", which the claim says
never happens. -/
theorem C3_counterexample :
    statusOfStore (reconStoreStep "h" [ctW] chW) "h" = "confirmed"
    ∧ statusOfStore (reconStoreStep "h" (reconStoreStep "h" [ctW] chW) chW0) "h" = "failed" :=
  ⟨rfl, rfl⟩

end EthFlask
